import Mathlib

/-!
Shallow embedding of `src/libnm-util/nm-connection.c` (NetworkManager's
connection-profile container): the setting-kind registry, the aggregate
container owning one setting per kind, the structural verifier, the
comparison/diff engine, the secrets coordinator and the serializer.

Individual setting kinds (wired, wireless, PPP, ...) are external
collaborators: the container invokes their capabilities (verify, compare,
diff, needSecrets, updateSecrets, toHash, newFromHash, connection-type
accessor) through a record of functions, `SettingOps`, exactly as the C
dispatches through the `NMSetting` class vtable.  A `Setting` itself is
modelled as its runtime type tag (the `GType`, an opaque natural), its
name (`nm_setting_get_name`) and an abstract instance identifier standing
for the object's field state.  A `GHashTable` keyed by the setting's type
name is modelled as a list with hash-insert (replace-or-append) semantics;
the list order stands for the (unspecified) hash iteration order.
-/

namespace NMConn

/-- NM_SETTING_CONNECTION_SETTING_NAME: the reserved connection-kind name. -/
def NM_SETTING_CONNECTION_SETTING_NAME : String := "connection"

/-- NM_SETTING_CONNECTION_PERMISSIONS property name. -/
def NM_SETTING_CONNECTION_PERMISSIONS : String := "permissions"

/-- G_TYPE_INVALID: the invalid GType marker. -/
def G_TYPE_INVALID : Nat := 0

/-- G_TYPE_NONE. -/
def G_TYPE_NONE : Nat := 1

/-- The GType of NMSettingConnection (an opaque runtime tag). -/
def NM_TYPE_SETTING_CONNECTION : Nat := 2

/-- The GType of NMSettingPPPOE (an opaque runtime tag). -/
def NM_TYPE_SETTING_PPPOE : Nat := 3

/-- G_MAXUINT32, the sentinel priority for unregistered kinds. -/
def G_MAXUINT32 : Nat := 4294967295

/-- A GValue: the typed values that appear in serialized setting maps.
`vstrv` is G_TYPE_STRV, `vstrList` is DBUS_TYPE_G_LIST_OF_STRING, `vtable`
is a nested GHashTable value (a serialized setting). -/
inductive Value where
  | vstr : String → Value
  | vstrv : List String → Value
  | vstrList : List String → Value
  | vuint : Nat → Value
  | vbool : Bool → Value
  | vtable : List (String × Value) → Value

/-- An NMSetting instance: its runtime GType `tag`, its setting name
(`nm_setting_get_name`) and an abstract identifier `sid` standing for the
object's property state (the concrete fields live behind the external
capability interface). -/
structure Setting where
  tag : Nat
  sname : String
  sid : Nat
deriving DecidableEq, Repr

/-- NMConnection: the private `settings` GHashTable (keyed by the setting's
type name, modelled by keying on `tag`) plus the out-of-band D-Bus path. -/
structure Connection where
  settings : List Setting
  path : Option String
deriving DecidableEq, Repr

/-- The error taxonomy surfaced by nm-connection.c: NM_CONNECTION_ERROR codes,
NM_SETTING_ERROR_PROPERTY_TYPE_MISMATCH, and opaque per-setting-kind errors
(identified by the owning kind's error quark). -/
inductive NMError where
  | connectionSettingNotFound
  | connectionTypeInvalid (msg : String)
  | settingNotFound (name : String)
  | propertyTypeMismatch
  | settingError (quark : Nat) (code : Nat) (msg : String)
deriving DecidableEq, Repr

/-- The external setting-capability interface (the NMSetting vtable as the
container sees it).  `verify` receives the complete sibling list;
`diff` receives the counterpart (if any), the flags, the invert flag and the
current per-property results for its name, returning (no-difference?, updated
results); `updateSecrets` returns the mutated setting or the setting's own
error; `connectionType` is `nm_setting_connection_get_connection_type`, read
off the connection-kind setting. -/
structure SettingOps where
  verify : Setting → List Setting → Option NMError
  compare : Setting → Setting → Nat → Bool
  diff : Setting → Option Setting → Nat → Bool → List (String × Nat) → Bool × List (String × Nat)
  needSecrets : Setting → Option (List String)
  updateSecrets : Setting → List (String × Value) → Except NMError Setting
  toHash : Setting → Nat → List (String × Value)
  newFromHash : Nat → List (String × Value) → Setting
  connectionType : Setting → Option String

/-! ## The setting registry -/

/-- A `SettingInfo` registry entry together with its hash key (the name):
GType, sort priority and error quark. -/
structure SettingInfo where
  name : String
  gtype : Nat
  priority : Nat
  errorQuark : Nat
deriving DecidableEq, Repr

/-- The process-wide `registered_settings` table, keyed by setting name. -/
abbrev Registry := List SettingInfo

/-- `g_hash_table_lookup (registered_settings, name)`. -/
def registryLookup (reg : Registry) (name : String) : Option SettingInfo :=
  reg.find? (fun i => i.name == name)

/-- Outcome of a registration call: `fatal` covers the `g_return_if_fail`
programming-error exits and the `g_assert` (the spec's "fails fatally,
programming-error assertion" taxonomy); `ok` carries the registry state. -/
inductive RegOutcome where
  | fatal
  | ok (reg : Registry)
deriving DecidableEq, Repr

/-- `_nm_register_setting`: validity checks, then the per-name idempotency
check, then the priority-0-is-connection-only assertion, then insertion. -/
def _nm_register_setting (reg : Registry) (name : String) (gtype : Nat)
    (priority : Nat) (errorQuark : Nat) : RegOutcome :=
  if gtype == G_TYPE_INVALID then .fatal
  else if gtype == G_TYPE_NONE then .fatal
  else if errorQuark == 0 then .fatal
  else if priority > 4 then .fatal
  else if (registryLookup reg name).isSome then .ok reg
  else if priority == 0 && name != NM_SETTING_CONNECTION_SETTING_NAME then .fatal
  else .ok (reg ++ [⟨name, gtype, priority, errorQuark⟩])

/-- `_get_setting_priority`: linear scan over the registry matching the
setting's runtime type; `G_MAXUINT32` when the kind was never registered. -/
def _get_setting_priority (reg : Registry) (s : Setting) : Nat :=
  match reg.find? (fun i => i.gtype == s.tag) with
  | some i => i.priority
  | none => G_MAXUINT32

/-- `_is_setting_base_type`: priority 1, or the grandfathered PPPoE kind. -/
def _is_setting_base_type (reg : Registry) (s : Setting) : Bool :=
  _get_setting_priority reg s == 1 || s.tag == NM_TYPE_SETTING_PPPOE

/-- `nm_connection_lookup_setting_type`: name to GType via the registry;
`none` models the G_TYPE_INVALID miss marker (plus a diagnostic warning). -/
def nm_connection_lookup_setting_type (reg : Registry) (name : String) : Option Nat :=
  (registryLookup reg name).map (·.gtype)

/-! ## Container operations -/

/-- GHashTable insert keyed by the setting's type: replaces the entry of the
same tag in place, otherwise appends. -/
def settingsInsert (ss : List Setting) (s : Setting) : List Setting :=
  if ss.any (fun x => x.tag == s.tag) then ss.map (fun x => if x.tag == s.tag then s else x)
  else ss ++ [s]

/-- `nm_connection_add_setting`: insert/replace by the setting's kind. -/
def nm_connection_add_setting (c : Connection) (s : Setting) : Connection :=
  { c with settings := settingsInsert c.settings s }

/-- `nm_connection_get_setting`: lookup by GType. -/
def nm_connection_get_setting (c : Connection) (t : Nat) : Option Setting :=
  c.settings.find? (fun s => s.tag == t)

/-- `nm_connection_get_setting_by_name`: resolve the name via the registry
first; absent when the name is unknown or the kind is not present. -/
def nm_connection_get_setting_by_name (reg : Registry) (c : Connection)
    (name : String) : Option Setting :=
  match nm_connection_lookup_setting_type reg name with
  | some t => nm_connection_get_setting c t
  | none => none

/-- String-keyed association-list lookup (`g_hash_table_lookup`). -/
def lookupStr {α : Type} (l : List (String × α)) (k : String) : Option α :=
  (l.find? (fun p => p.1 == k)).map (·.2)

/-- String-keyed hash insert: replace in place or append. -/
def strInsert {α : Type} (l : List (String × α)) (k : String) (v : α) :
    List (String × α) :=
  if l.any (fun p => p.1 == k) then l.map (fun p => if p.1 == k then (k, v) else p)
  else l ++ [(k, v)]

/-! ## Verifier -/

/-- `nm_connection_verify`: connection setting present, every setting's own
verify over the complete sibling list (short-circuiting at the first
failure), then the `type` field must be present, resolve by name to a
present setting, and that setting must be a base type. -/
def nm_connection_verify (ops : SettingOps) (reg : Registry) (c : Connection) :
    Option NMError :=
  match nm_connection_get_setting c NM_TYPE_SETTING_CONNECTION with
  | none => some .connectionSettingNotFound
  | some sCon =>
    match c.settings.findSome? (fun s => ops.verify s c.settings) with
    | some e => some e
    | none =>
      match ops.connectionType sCon with
      | none => some (.connectionTypeInvalid "connection type missing")
      | some ctype =>
        match nm_connection_get_setting_by_name reg c ctype with
        | none => some (.connectionTypeInvalid "base setting GType not found")
        | some base =>
          if _is_setting_base_type reg base then none
          else some (.connectionTypeInvalid
            ("connection type " ++ ctype ++ " is not a base type"))

/-! ## Comparator -/

/-- `nm_connection_compare`: both NULL equal, one NULL unequal; otherwise
every setting of `a` must have a same-kind counterpart in `b` comparing
equal under the flags, and the two setting counts must agree. -/
def nm_connection_compare (ops : SettingOps) (a b : Option Connection)
    (flags : Nat) : Bool :=
  match a, b with
  | none, none => true
  | none, some _ => false
  | some _, none => false
  | some ac, some bc =>
    (ac.settings.all fun src =>
      match nm_connection_get_setting bc src.tag with
      | some cmp => ops.compare src cmp flags
      | none => false)
    && ac.settings.length == bc.settings.length

/-! ## Diff engine -/

/-- The accumulated diff result: setting name to per-property change flags. -/
abbrev DiffMap := List (String × List (String × Nat))

/-- Replace the per-property results stored under a name (the in-place
mutation `nm_setting_diff` performs on an existing results table). -/
def diffsUpdate (ds : DiffMap) (k : String) (v : List (String × Nat)) : DiffMap :=
  ds.map (fun p => if p.1 == k then (k, v) else p)

/-- The same-kind counterpart of a setting in the other connection, when
that connection is non-null. -/
def counterpart (b : Option Connection) (x : Setting) : Option Setting :=
  match b with
  | some bc => nm_connection_get_setting bc x.tag
  | none => none

/-- One `diff_one_connection` step for a single setting of `a`. -/
def diffStep (ops : SettingOps) (b : Option Connection) (flags : Nat)
    (invert : Bool) (ds : DiffMap) (aset : Setting) : DiffMap :=
  let bset := counterpart b aset
  match lookupStr ds aset.sname with
  | some existing =>
    diffsUpdate ds aset.sname (ops.diff aset bset flags invert existing).2
  | none =>
    let r := ops.diff aset bset flags invert []
    if r.1 then ds else ds ++ [(aset.sname, r.2)]

/-- `diff_one_connection`: one directional scan over the settings of `a`,
delegating to each setting's diff capability and accumulating results keyed
by setting name (a fresh results table is inserted only when the setting
reported a difference). -/
def diff_one_connection (ops : SettingOps) (a : Connection) (b : Option Connection)
    (flags : Nat) (invert : Bool) (diffs : DiffMap) : DiffMap :=
  a.settings.foldl (diffStep ops b flags invert) diffs

/-- `nm_connection_diff`: identical objects short-circuit to (equal, empty);
otherwise the forward scan then (if `b` is non-null) the inverted reverse
scan; equal exactly when the merged result has zero entries (the C sets
`*out_settings` only then, and returns TRUE iff it stayed unset). -/
def nm_connection_diff (ops : SettingOps) (a : Connection) (b : Option Connection)
    (flags : Nat) : Bool × DiffMap :=
  if b == some a then (true, [])
  else
    let d1 := diff_one_connection ops a b flags false []
    let d2 := match b with
      | some bc => diff_one_connection ops bc (some a) flags true d1
      | none => d1
    (d2.isEmpty, d2)

/-! ## Secrets coordinator -/

/-- `setting_priority_compare`: the GCompareFunc over registry priorities. -/
def setting_priority_compare (reg : Registry) (a b : Setting) : Int :=
  let pa := _get_setting_priority reg a
  let pb := _get_setting_priority reg b
  if pa < pb then -1 else if pa == pb then 0 else 1

/-- `g_slist_insert_sorted`: walk while the new element compares greater
than the cursor, insert before the first element it does not exceed. -/
def slistInsertSorted (reg : Registry) (l : List Setting) (x : Setting) :
    List Setting :=
  match l with
  | [] => [x]
  | y :: ys =>
    if setting_priority_compare reg x y > 0 then y :: slistInsertSorted reg ys x
    else x :: y :: ys

/-- `nm_connection_need_secrets`: sort the owned settings ascending by
registry priority, return the name and hints of the first one whose
needSecrets capability reports a need (a non-null hints array). -/
def nm_connection_need_secrets (ops : SettingOps) (reg : Registry)
    (c : Connection) : Option (String × List String) :=
  let sorted := c.settings.foldl (slistInsertSorted reg) []
  match sorted.find? (fun s => (ops.needSecrets s).isSome) with
  | some s => some (s.sname, (ops.needSecrets s).getD [])
  | none => none

/-- The observable outcome of `nm_connection_update_secrets`: the returned
boolean, the container state, the GError, whether the secrets-updated signal
was emitted, and the setting-name payload it carried. -/
structure UpdateOutcome where
  success : Bool
  conn : Connection
  err : Option NMError
  emitted : Bool
  payload : Option String
deriving DecidableEq, Repr

/-- View a GValue as a nested setting hash: the C reinterprets the value
found at a setting-name key as a GHashTable (meaningful only for `vtable`). -/
def tableOf : Value → List (String × Value)
  | .vtable pm => pm
  | _ => []

/-- In-place mutation of the setting stored under `tag` (a GObject's type
never changes, so the hash key is stable). -/
def mutateSetting (c : Connection) (tag : Nat) (s2 : Setting) : Connection :=
  { c with settings := c.settings.map (fun x => if x.tag == tag then s2 else x) }

/-- Outcome of delegating one `nm_setting_update_secrets` call in the
single-setting branch: success emits the signal with the setting name. -/
def update_secrets_one (c : Connection) (payload : Option String) (st : Setting)
    (r : Except NMError Setting) : UpdateOutcome :=
  match r with
  | .ok s2 => ⟨true, mutateSetting c st.tag s2, none, true, payload⟩
  | .error e => ⟨false, c, some e, false, none⟩

/-- The bulk branch of `nm_connection_update_secrets`: success starts true
(so an empty map succeeds); each entry resolves its setting by name
(aborting with SettingNotFound naming the missing kind) and delegates its
nested map; the signal (payload NULL) is emitted only on overall success. -/
def update_secrets_all (ops : SettingOps) (reg : Registry) (c : Connection) :
    List (String × Value) → UpdateOutcome
  | [] => ⟨true, c, none, true, none⟩
  | (name, v) :: rest =>
    match nm_connection_get_setting_by_name reg c name with
    | none => ⟨false, c, some (.settingNotFound name), false, none⟩
    | some st =>
      match ops.updateSecrets st (tableOf v) with
      | .ok s2 => update_secrets_all ops reg (mutateSetting c st.tag s2) rest
      | .error e => ⟨false, c, some e, false, none⟩

/-- `nm_connection_update_secrets`.  With a setting name: resolve it (fail
SettingNotFound if absent); if the secrets map holds a value under exactly
that name, unwrap it as the nested setting map, else delegate the map
as-is.  Without a name: the bulk branch.  The secrets-updated signal carries
the `settingName` argument and fires exactly on success. -/
def nm_connection_update_secrets (ops : SettingOps) (reg : Registry)
    (c : Connection) (settingName : Option String)
    (secrets : List (String × Value)) : UpdateOutcome :=
  match settingName with
  | some nm =>
    match nm_connection_get_setting_by_name reg c nm with
    | none => ⟨false, c, some (.settingNotFound nm), false, none⟩
    | some st =>
      match lookupStr secrets nm with
      | some v => update_secrets_one c (some nm) st (ops.updateSecrets st (tableOf v))
      | none => update_secrets_one c (some nm) st (ops.updateSecrets st secrets)
  | none => update_secrets_all ops reg c secrets

/-! ## Serializer -/

/-- The intermediate hash built by `nm_connection_to_hash`: one entry per
owned setting keyed by its name; a setting whose serialization is empty is
omitted (the C skips a NULL setting hash). -/
def to_hash_step (ops : SettingOps) (flags : Nat)
    (acc : List (String × List (String × Value))) (s : Setting) :
    List (String × List (String × Value)) :=
  let sh := ops.toHash s flags
  if sh.isEmpty then acc else strInsert acc s.sname sh

/-- See `to_hash_step`: the whole serialization loop. -/
def to_hash_list (ops : SettingOps) (c : Connection) (flags : Nat) :
    List (String × List (String × Value)) :=
  c.settings.foldl (to_hash_step ops flags) []

/-- `nm_connection_to_hash`: NULL (none) rather than an empty container when
no setting contributed. -/
def nm_connection_to_hash (ops : SettingOps) (c : Connection) (flags : Nat) :
    Option (List (String × List (String × Value))) :=
  let ret := to_hash_list ops c flags
  if ret.isEmpty then none else some ret

/-- Is the connection::permissions value of an accepted type
(G_TYPE_STRV or DBUS_TYPE_G_LIST_OF_STRING)? -/
def permissionsTypeOk : Value → Bool
  | .vstrv _ => true
  | .vstrList _ => true
  | _ => false

/-- `validate_permissions_type`: if the connection-kind map is present and
holds a permissions entry, its value must be a string list. -/
def validate_permissions_type (hash : List (String × List (String × Value))) : Bool :=
  match lookupStr hash NM_SETTING_CONNECTION_SETTING_NAME with
  | some sCon =>
    match lookupStr sCon NM_SETTING_CONNECTION_PERMISSIONS with
    | some v => permissionsTypeOk v
    | none => true
  | none => true

/-- Result of `nm_connection_replace_settings` / `hash_to_connection`: the
returned boolean, the container state it leaves behind, and the GError. -/
structure ReplaceOutcome where
  ok : Bool
  conn : Connection
  err : Option NMError
deriving DecidableEq, Repr

/-- One iteration of the `hash_to_connection` loop.  The C declares
`NMSetting *setting` outside the loop, so an entry whose kind name does not
resolve re-adds the previous iteration's setting (a visible no-op: it is
already stored under its own key); the accumulator carries that local
variable faithfully.  `nm_setting_new_from_hash` is outside this file's
source and is modelled from the spec as total (one constructed setting per
resolvable entry). -/
def hash_to_connection_step (ops : SettingOps) (reg : Registry)
    (acc : List Setting × Option Setting)
    (e : String × List (String × Value)) : List Setting × Option Setting :=
  let sOpt := match nm_connection_lookup_setting_type reg e.1 with
    | some t => some (ops.newFromHash t e.2)
    | none => acc.2
  match sOpt with
  | some s => (settingsInsert acc.1 s, sOpt)
  | none => (acc.1, sOpt)

/-- The `hash_to_connection` loop over all entries, from the cleared
settings table and the uninitialized loop variable. -/
def hash_to_connection_fold (ops : SettingOps) (reg : Registry)
    (entries : List (String × List (String × Value))) :
    List Setting × Option Setting :=
  entries.foldl (hash_to_connection_step ops reg) ([], none)

/-- `hash_to_connection`: clear all current settings, rebuild from the hash,
then verify; the rebuilt (possibly invalid) state is kept either way. -/
def hash_to_connection (ops : SettingOps) (reg : Registry) (c : Connection)
    (new : List (String × List (String × Value))) : ReplaceOutcome :=
  let c2 : Connection := { c with settings := (hash_to_connection_fold ops reg new).1 }
  match nm_connection_verify ops reg c2 with
  | none => ⟨true, c2, none⟩
  | some e => ⟨false, c2, some e⟩

/-- `nm_connection_replace_settings`: permissions pre-check (failing with
PropertyTypeMismatch before any mutation), then clear-and-rebuild. -/
def nm_connection_replace_settings (ops : SettingOps) (reg : Registry)
    (c : Connection) (new : List (String × List (String × Value))) :
    ReplaceOutcome :=
  if validate_permissions_type new then hash_to_connection ops reg c new
  else ⟨false, c, some .propertyTypeMismatch⟩

/-- `nm_connection_new_from_hash`: permissions pre-check, a fresh empty
connection, then `hash_to_connection`; a verification failure surfaces as
the overall error (the partially built connection is discarded). -/
def nm_connection_new_from_hash (ops : SettingOps) (reg : Registry)
    (hash : List (String × List (String × Value))) : Except NMError Connection :=
  if validate_permissions_type hash then
    let r := hash_to_connection ops reg ⟨[], none⟩ hash
    if r.ok then .ok r.conn else .error (r.err.getD .propertyTypeMismatch)
  else .error .propertyTypeMismatch

/-- The settings a replace/deserialize rebuilds, as the spec words it: one
newly constructed setting per entry whose kind name the registry resolves,
entries with unknown names skipped.  Stated separately from
`hash_to_connection_fold` so the claim about the rebuilt state can compare
the code's fold (with its stale loop variable) against this reference. -/
def replaced_settings_step (ops : SettingOps) (reg : Registry)
    (ss : List Setting) (e : String × List (String × Value)) : List Setting :=
  match nm_connection_lookup_setting_type reg e.1 with
  | some t => settingsInsert ss (ops.newFromHash t e.2)
  | none => ss

/-- See `replaced_settings_step`: the whole reference rebuild. -/
def replaced_settings_spec (ops : SettingOps) (reg : Registry)
    (entries : List (String × List (String × Value))) : List Setting :=
  entries.foldl (replaced_settings_step ops reg) []

/-! ## General helper lemmas -/

/-- In a list whose keys are distinct, `find?` on a member's key returns
exactly that member. -/
theorem find?_key_unique {α β : Type} [BEq β] [LawfulBEq β] (key : α → β)
    {l : List α} {x : α} {v : β} (hnd : (l.map key).Nodup) (hmem : x ∈ l)
    (hx : key x = v) : l.find? (fun y => key y == v) = some x := by
  induction l with
  | nil => cases hmem
  | cons y ys ih =>
    rcases List.mem_cons.mp hmem with rfl | hmem2
    · rw [List.find?_cons]
      simp [hx]
    · have hnd2 := hnd
      rw [List.map_cons, List.nodup_cons] at hnd2
      have hy : key y ≠ v := by
        intro h
        apply hnd2.1
        rw [h.trans hx.symm]
        exact List.mem_map_of_mem _ hmem2
      have hyb : (key y == v) = false := by simp [hy]
      rw [List.find?_cons, hyb]
      exact ih hnd2.2 hmem2

/-- `find?` is some exactly when a member satisfies the predicate. -/
theorem find?_isSome_iff {α : Type} (p : α → Bool) (l : List α) :
    (l.find? p).isSome = true ↔ ∃ x ∈ l, p x = true := by
  rw [Option.isSome_iff_exists]
  constructor
  · rintro ⟨x, hx⟩
    exact ⟨x, List.mem_of_find?_eq_some hx, List.find?_some hx⟩
  · rintro ⟨x, hmem, hpx⟩
    rcases h : l.find? p with _ | y
    · rw [List.find?_eq_none] at h
      exact absurd hpx (h x hmem)
    · exact ⟨y, rfl⟩

/-! ## C10 -/

/-- C10: bulk updateSecrets (no kind name) with an empty secrets map
succeeds: it returns true, leaves every setting untouched, reports no error
and still emits the secrets-updated signal with no kind name, because the
success flag is initialized to true before the (empty) iteration. -/
theorem update_secrets_bulk_empty (ops : SettingOps) (reg : Registry)
    (c : Connection) :
    nm_connection_update_secrets ops reg c none [] =
      ⟨true, c, none, true, none⟩ := rfl

/-! ## C6 -/

/-- C6 counterexample: a registration call with priority 0 and a name other
than the reserved connection-kind name does NOT fail fatally when the name
is already registered — the idempotency check returns first, so the call is
a silent no-op, contradicting the claim that such a call always fails with
the programming-error assertion. -/
theorem register_noop_beats_priority_assert :
    _nm_register_setting [⟨"foo", 10, 1, 7⟩] "foo" 10 0 7 =
      RegOutcome.ok [⟨"foo", 10, 1, 7⟩]
    ∧ "foo" ≠ NM_SETTING_CONNECTION_SETTING_NAME := by
  constructor
  · rfl
  · decide

/-- C6 (amended): with a valid GType, registration fails fatally whenever
the error quark is 0 or the priority exceeds 4 (checked before anything
else); otherwise a name already present makes the call a no-op that changes
no entry; for a new name the call additionally fails fatally when priority
is 0 and the name is not the reserved connection-kind name, and records the
entry otherwise. -/
theorem register_spec (reg : Registry) (name : String)
    (gtype priority errorQuark : Nat) :
    (gtype ≠ G_TYPE_INVALID → gtype ≠ G_TYPE_NONE →
      (errorQuark = 0 ∨ priority > 4) →
      _nm_register_setting reg name gtype priority errorQuark = .fatal)
    ∧ (gtype ≠ G_TYPE_INVALID → gtype ≠ G_TYPE_NONE → errorQuark ≠ 0 →
        priority ≤ 4 → (registryLookup reg name).isSome →
        _nm_register_setting reg name gtype priority errorQuark = .ok reg)
    ∧ (gtype ≠ G_TYPE_INVALID → gtype ≠ G_TYPE_NONE → errorQuark ≠ 0 →
        priority ≤ 4 → registryLookup reg name = none → priority = 0 →
        name ≠ NM_SETTING_CONNECTION_SETTING_NAME →
        _nm_register_setting reg name gtype priority errorQuark = .fatal)
    ∧ (gtype ≠ G_TYPE_INVALID → gtype ≠ G_TYPE_NONE → errorQuark ≠ 0 →
        priority ≤ 4 → registryLookup reg name = none →
        (priority ≠ 0 ∨ name = NM_SETTING_CONNECTION_SETTING_NAME) →
        _nm_register_setting reg name gtype priority errorQuark =
          .ok (reg ++ [⟨name, gtype, priority, errorQuark⟩])) := by
  refine ⟨?_, ?_, ?_, ?_⟩
  · intro h0 h1 h
    rcases h with h | h <;>
      simp [_nm_register_setting, h0, h1, h, Nat.not_lt_of_le]
  · intro h0 h1 hq hp hs
    simp [_nm_register_setting, h0, h1, hq, Nat.not_lt.mpr hp, hs]
  · intro h0 h1 hq hp hnone h2 h3
    simp [_nm_register_setting, h0, h1, hq, Nat.not_lt.mpr hp, hnone, h2, h3]
  · intro h0 h1 hq hp hnone h2
    rcases h2 with h2 | h2
    · simp [_nm_register_setting, h0, h1, hq, Nat.not_lt.mpr hp, hnone, h2]
    · subst h2
      simp [_nm_register_setting, h0, h1, hq, Nat.not_lt.mpr hp, hnone]

/-- C6 witness: registering the reserved connection kind into an empty
registry succeeds and records the entry. -/
theorem register_spec_witness :
    _nm_register_setting [] "connection" 2 0 5 =
      RegOutcome.ok [⟨"connection", 2, 0, 5⟩] :=
  (register_spec [] "connection" 2 0 5).2.2.2 (by decide) (by decide)
    (by decide) (by decide) rfl (Or.inr rfl)

/-! ## C7 -/

/-- Registry well-formedness: the invariants the registration discipline
establishes (priorities in range, nonzero quarks, priority 0 only for the
reserved connection-kind name, unique names and unique GTypes), together
with the fact — modelled from the spec, since the registration call in
nm-setting-connection.c is outside this file's source — that the reserved
connection kind registers NM_TYPE_SETTING_CONNECTION with priority 0. -/
def RegistryWF (reg : Registry) : Prop :=
  (∀ i ∈ reg, i.priority ≤ 4 ∧ i.errorQuark ≠ 0 ∧
    (i.priority = 0 → i.name = NM_SETTING_CONNECTION_SETTING_NAME))
  ∧ (reg.map (·.name)).Nodup
  ∧ (reg.map (·.gtype)).Nodup
  ∧ (∀ i ∈ reg, i.name = NM_SETTING_CONNECTION_SETTING_NAME →
      i.gtype = NM_TYPE_SETTING_CONNECTION ∧ i.priority = 0)

/-- C7: priorityOf returns the registered priority of the setting's kind and
the maximum sentinel G_MAXUINT32 for a kind that was never registered; under
registry well-formedness the sentinel sorts strictly after every registered
kind; the reserved connection kind's priority is always 0; and isBaseType
holds for exactly the kinds of priority 1 together with the PPPoE kind. -/
theorem priority_and_base_type_spec (reg : Registry) (s : Setting) :
    (∀ i, reg.find? (fun j => j.gtype == s.tag) = some i →
      _get_setting_priority reg s = i.priority)
    ∧ ((∀ i ∈ reg, i.gtype ≠ s.tag) → _get_setting_priority reg s = G_MAXUINT32)
    ∧ (RegistryWF reg → (∀ i ∈ reg, i.gtype ≠ s.tag) →
        ∀ t : Setting, (∃ i ∈ reg, i.gtype = t.tag) →
          _get_setting_priority reg t < _get_setting_priority reg s)
    ∧ (RegistryWF reg → s.tag = NM_TYPE_SETTING_CONNECTION →
        (∃ i ∈ reg, i.name = NM_SETTING_CONNECTION_SETTING_NAME) →
        _get_setting_priority reg s = 0)
    ∧ (_is_setting_base_type reg s = true ↔
        (_get_setting_priority reg s = 1 ∨ s.tag = NM_TYPE_SETTING_PPPOE)) := by
  have hnone : (∀ i ∈ reg, i.gtype ≠ s.tag) →
      _get_setting_priority reg s = G_MAXUINT32 := by
    intro h
    unfold _get_setting_priority
    have : reg.find? (fun i => i.gtype == s.tag) = none := by
      rw [List.find?_eq_none]
      intro i hi
      simp [h i hi]
    rw [this]
  refine ⟨?_, hnone, ?_, ?_, ?_⟩
  · intro i hi
    unfold _get_setting_priority
    rw [hi]
  · intro hwf habsent t ⟨i, hi, hit⟩
    have hs := hnone habsent
    have : (reg.find? (fun j => j.gtype == t.tag)).isSome = true := by
      rw [find?_isSome_iff]
      exact ⟨i, hi, by simp [hit]⟩
    rcases Option.isSome_iff_exists.mp this with ⟨j, hj⟩
    have hjm : j ∈ reg := List.mem_of_find?_eq_some hj
    have ht : _get_setting_priority reg t = j.priority := by
      unfold _get_setting_priority
      rw [hj]
    rw [hs, ht]
    calc j.priority ≤ 4 := (hwf.1 j hjm).1
      _ < G_MAXUINT32 := by decide
  · intro hwf hst ⟨i, hi, hin⟩
    obtain ⟨hig, hip⟩ := hwf.2.2.2 i hi hin
    have : reg.find? (fun j => j.gtype == s.tag) = some i :=
      find?_key_unique (·.gtype) hwf.2.2.1 hi
        (by show i.gtype = s.tag; rw [hig, hst])
    unfold _get_setting_priority
    rw [this]
    exact hip
  · unfold _is_setting_base_type
    simp

/-- C7 witness: a concrete well-formed registry (connection at priority 0,
ethernet at priority 1), evaluated on a connection-kind setting, an
unregistered setting and a PPPoE setting. -/
theorem priority_and_base_type_spec_witness :
    _get_setting_priority [⟨"connection", 2, 0, 5⟩, ⟨"eth", 10, 1, 6⟩]
      ⟨2, "connection", 0⟩ = 0
    ∧ _get_setting_priority [⟨"connection", 2, 0, 5⟩, ⟨"eth", 10, 1, 6⟩]
      ⟨99, "x", 0⟩ = G_MAXUINT32
    ∧ _is_setting_base_type [⟨"connection", 2, 0, 5⟩, ⟨"eth", 10, 1, 6⟩]
      ⟨3, "pppoe", 0⟩ = true := by
  refine ⟨?_, ?_, ?_⟩
  · exact (priority_and_base_type_spec _ _).2.2.2.1
      (by refine ⟨?_, ?_, ?_, ?_⟩ <;> decide) rfl
      ⟨⟨"connection", 2, 0, 5⟩, by decide, rfl⟩
  · exact (priority_and_base_type_spec _ _).2.1 (by decide)
  · exact ((priority_and_base_type_spec _ _).2.2.2.2).mpr (Or.inr rfl)

/-! ## C3 -/

/-- Characterization of compare on two non-null connections. -/
theorem compare_some_iff (ops : SettingOps) (flags : Nat) (a b : Connection) :
    nm_connection_compare ops (some a) (some b) flags = true ↔
      ((∀ s ∈ a.settings, ∃ t, nm_connection_get_setting b s.tag = some t ∧
        ops.compare s t flags = true)
       ∧ a.settings.length = b.settings.length) := by
  unfold nm_connection_compare
  rw [Bool.and_eq_true, List.all_eq_true]
  refine and_congr (forall₂_congr fun s hs => ?_) (by simp)
  cases h : nm_connection_get_setting b s.tag <;> simp [h]

/-- C3: compare returns true for two null connections, false when exactly
one is null, and otherwise true exactly when every setting of `a` has a
same-kind setting in `b` comparing equal under the flags (delegated to the
setting's own comparator) and the total setting counts agree. -/
theorem compare_spec (ops : SettingOps) (flags : Nat) :
    nm_connection_compare ops none none flags = true
    ∧ (∀ b : Connection, nm_connection_compare ops none (some b) flags = false)
    ∧ (∀ a : Connection, nm_connection_compare ops (some a) none flags = false)
    ∧ (∀ a b : Connection,
        nm_connection_compare ops (some a) (some b) flags = true ↔
          ((∀ s ∈ a.settings, ∃ t, nm_connection_get_setting b s.tag = some t ∧
            ops.compare s t flags = true)
           ∧ a.settings.length = b.settings.length)) :=
  ⟨rfl, fun _ => rfl, fun _ => rfl, fun a b => compare_some_iff ops flags a b⟩

/-! ## C1 -/

/-- C1: verify succeeds exactly when the connection-kind setting is present,
every setting passes its own verify capability given the complete sibling
list, the connection setting's `type` field is present (the C checks the
NULL pointer; an absent GObject string property is NULL), the type name
resolves via the registry to a setting present in the connection, and that
setting is a base type.  Moreover a connection without the connection-kind
setting always fails with ConnectionSettingNotFound, whatever else it
holds. -/
theorem verify_spec (ops : SettingOps) (reg : Registry) (c : Connection) :
    (nm_connection_verify ops reg c = none ↔
      ∃ sCon, nm_connection_get_setting c NM_TYPE_SETTING_CONNECTION = some sCon
        ∧ (∀ s ∈ c.settings, ops.verify s c.settings = none)
        ∧ ∃ ctype, ops.connectionType sCon = some ctype
        ∧ ∃ base, nm_connection_get_setting_by_name reg c ctype = some base
        ∧ _is_setting_base_type reg base = true)
    ∧ (nm_connection_get_setting c NM_TYPE_SETTING_CONNECTION = none →
        nm_connection_verify ops reg c = some NMError.connectionSettingNotFound) := by
  constructor
  · unfold nm_connection_verify
    cases hcon : nm_connection_get_setting c NM_TYPE_SETTING_CONNECTION with
    | none => simp
    | some sCon =>
      cases hver : c.settings.findSome? (fun s => ops.verify s c.settings) with
      | some e =>
        constructor
        · intro h
          simp at h
        · rintro ⟨s2, hs2, hall, _⟩
          have hn := List.findSome?_eq_none_iff.mpr hall
          rw [hn] at hver
          cases hver
      | none =>
        have hall : ∀ s ∈ c.settings, ops.verify s c.settings = none :=
          List.findSome?_eq_none_iff.mp hver
        cases hty : ops.connectionType sCon with
        | none => simp [hall, hty]
        | some ctype =>
          cases hbase : nm_connection_get_setting_by_name reg c ctype with
          | none => simp [hall, hty, hbase]
          | some base =>
            cases hb : _is_setting_base_type reg base with
            | true =>
              constructor
              · intro _
                exact ⟨sCon, rfl, hall, ctype, hty, base, hbase, hb⟩
              · intro _
                simp [hty, hbase, hb]
            | false => simp [hall, hty, hbase, hb]
  · intro h
    unfold nm_connection_verify
    rw [h]

/-! ## C8 -/

/-- In the bulk branch the secrets-updated signal fires exactly on success,
and success carries a null setting name. -/
theorem update_secrets_all_emitted (ops : SettingOps) (reg : Registry) :
    ∀ (secrets : List (String × Value)) (c : Connection),
      (update_secrets_all ops reg c secrets).emitted =
        (update_secrets_all ops reg c secrets).success
      ∧ ((update_secrets_all ops reg c secrets).success = true →
          (update_secrets_all ops reg c secrets).payload = none) := by
  intro secrets
  induction secrets with
  | nil => exact fun c => ⟨rfl, fun _ => rfl⟩
  | cons e rest ih =>
    intro c
    obtain ⟨name, v⟩ := e
    cases h1 : nm_connection_get_setting_by_name reg c name with
    | none => simp [update_secrets_all, h1]
    | some st =>
      cases h2 : ops.updateSecrets st (tableOf v) with
      | ok s2 =>
        have h3 := ih (mutateSetting c st.tag s2)
        simpa [update_secrets_all, h1, h2] using h3
      | error e2 => simp [update_secrets_all, h1, h2]

/-- C8: updateSecrets with a kind name fails with SettingNotFound (naming
the kind) when that setting is absent; when present, a nested map stored
under exactly that kind's name is unwrapped and delegated, and otherwise
the whole map is delegated as-is.  With no kind name, the bulk walk aborts
with SettingNotFound naming the first entry whose kind is absent, and
otherwise steps through the entries delegating each nested map.  The
secrets-updated signal is emitted exactly when the whole operation
succeeds, and then carries the kind-name argument (none in the bulk
case). -/
theorem update_secrets_spec (ops : SettingOps) (reg : Registry)
    (c : Connection) (secrets : List (String × Value)) :
    (∀ nm, nm_connection_get_setting_by_name reg c nm = none →
      nm_connection_update_secrets ops reg c (some nm) secrets =
        ⟨false, c, some (.settingNotFound nm), false, none⟩)
    ∧ (∀ nm st pm, nm_connection_get_setting_by_name reg c nm = some st →
        lookupStr secrets nm = some (Value.vtable pm) →
        nm_connection_update_secrets ops reg c (some nm) secrets =
          update_secrets_one c (some nm) st (ops.updateSecrets st pm))
    ∧ (∀ nm st, nm_connection_get_setting_by_name reg c nm = some st →
        lookupStr secrets nm = none →
        nm_connection_update_secrets ops reg c (some nm) secrets =
          update_secrets_one c (some nm) st (ops.updateSecrets st secrets))
    ∧ (∀ name v rest, secrets = (name, v) :: rest →
        nm_connection_get_setting_by_name reg c name = none →
        nm_connection_update_secrets ops reg c none secrets =
          ⟨false, c, some (.settingNotFound name), false, none⟩)
    ∧ (∀ name v rest st s2, secrets = (name, v) :: rest →
        nm_connection_get_setting_by_name reg c name = some st →
        ops.updateSecrets st (tableOf v) = .ok s2 →
        nm_connection_update_secrets ops reg c none secrets =
          nm_connection_update_secrets ops reg (mutateSetting c st.tag s2) none rest)
    ∧ (∀ sn, (nm_connection_update_secrets ops reg c sn secrets).emitted =
          (nm_connection_update_secrets ops reg c sn secrets).success
        ∧ ((nm_connection_update_secrets ops reg c sn secrets).success = true →
            (nm_connection_update_secrets ops reg c sn secrets).payload = sn)) := by
  refine ⟨?_, ?_, ?_, ?_, ?_, ?_⟩
  · intro nm h
    simp [nm_connection_update_secrets, h]
  · intro nm st pm hst hpm
    simp [nm_connection_update_secrets, hst, hpm, tableOf]
  · intro nm st hst hpm
    simp [nm_connection_update_secrets, hst, hpm]
  · intro name v rest hsec h
    subst hsec
    simp [nm_connection_update_secrets, update_secrets_all, h]
  · intro name v rest st s2 hsec hst hok
    subst hsec
    simp [nm_connection_update_secrets, update_secrets_all, hst, hok]
  · intro sn
    cases sn with
    | none => exact update_secrets_all_emitted ops reg secrets c
    | some nm =>
      cases h1 : nm_connection_get_setting_by_name reg c nm with
      | none => simp [nm_connection_update_secrets, h1]
      | some st =>
        cases h2 : lookupStr secrets nm with
        | some v =>
          cases h3 : ops.updateSecrets st (tableOf v) with
          | ok s2 =>
            simp [nm_connection_update_secrets, h1, h2, h3, update_secrets_one]
          | error e =>
            simp [nm_connection_update_secrets, h1, h2, h3, update_secrets_one]
        | none =>
          cases h3 : ops.updateSecrets st secrets with
          | ok s2 =>
            simp [nm_connection_update_secrets, h1, h2, h3, update_secrets_one]
          | error e =>
            simp [nm_connection_update_secrets, h1, h2, h3, update_secrets_one]

/-- C8 witness: a concrete connection with a wifi-security setting: a
nested map under that name is unwrapped and delegated; a connection without
it fails with SettingNotFound. -/
theorem update_secrets_spec_witness :
    nm_connection_update_secrets
      { verify := fun _ _ => none, compare := fun _ _ _ => true,
        diff := fun _ _ _ _ r => (true, r), needSecrets := fun _ => none,
        updateSecrets := fun s pm => .ok { s with sid := s.sid + pm.length },
        toHash := fun _ _ => [], newFromHash := fun t _ => ⟨t, "", 0⟩,
        connectionType := fun _ => none }
      [⟨"wifi-security", 7, 2, 9⟩]
      ⟨[⟨7, "wifi-security", 0⟩], none⟩
      (some "wifi-security")
      [("wifi-security", Value.vtable [("psk", Value.vstr "x")])] =
      ⟨true, ⟨[⟨7, "wifi-security", 1⟩], none⟩, none, true, some "wifi-security"⟩
    ∧ nm_connection_update_secrets
      { verify := fun _ _ => none, compare := fun _ _ _ => true,
        diff := fun _ _ _ _ r => (true, r), needSecrets := fun _ => none,
        updateSecrets := fun s pm => .ok { s with sid := s.sid + pm.length },
        toHash := fun _ _ => [], newFromHash := fun t _ => ⟨t, "", 0⟩,
        connectionType := fun _ => none }
      [⟨"wifi-security", 7, 2, 9⟩]
      ⟨[], none⟩
      (some "wifi-security")
      [("psk", Value.vstr "x")] =
      ⟨false, ⟨[], none⟩, some (.settingNotFound "wifi-security"), false, none⟩ := by
  constructor
  · have h := (update_secrets_spec
      { verify := fun _ _ => none, compare := fun _ _ _ => true,
        diff := fun _ _ _ _ r => (true, r), needSecrets := fun _ => none,
        updateSecrets := fun s pm => .ok { s with sid := s.sid + pm.length },
        toHash := fun _ _ => [], newFromHash := fun t _ => ⟨t, "", 0⟩,
        connectionType := fun _ => none }
      [⟨"wifi-security", 7, 2, 9⟩]
      ⟨[⟨7, "wifi-security", 0⟩], none⟩
      [("wifi-security", Value.vtable [("psk", Value.vstr "x")])]).2.1
      "wifi-security" ⟨7, "wifi-security", 0⟩ [("psk", Value.vstr "x")] rfl rfl
    rw [h]
    rfl
  · have h := (update_secrets_spec
      { verify := fun _ _ => none, compare := fun _ _ _ => true,
        diff := fun _ _ _ _ r => (true, r), needSecrets := fun _ => none,
        updateSecrets := fun s pm => .ok { s with sid := s.sid + pm.length },
        toHash := fun _ _ => [], newFromHash := fun t _ => ⟨t, "", 0⟩,
        connectionType := fun _ => none }
      [⟨"wifi-security", 7, 2, 9⟩]
      ⟨[], none⟩
      [("psk", Value.vstr "x")]).1 "wifi-security" rfl
    rw [h]

/-! ## C2 -/

/-- After a hash insert, looking the inserted setting's tag up finds it. -/
theorem find?_map_replace (s : Setting) :
    ∀ ss : List Setting, ss.any (fun x => x.tag == s.tag) = true →
      (ss.map (fun x => if x.tag == s.tag then s else x)).find?
        (fun x => x.tag == s.tag) = some s := by
  intro ss
  induction ss with
  | nil => intro h; simp at h
  | cons y ys ih =>
    intro hany
    rw [List.map_cons]
    cases hy : (y.tag == s.tag) with
    | true =>
      rw [if_pos rfl]
      exact List.find?_cons_of_pos _ (by simp)
    | false =>
      rw [List.any_cons, hy, Bool.false_or] at hany
      rw [if_neg (by simp), List.find?_cons_of_neg _ (by simp [hy])]
      exact ih hany

theorem find?_append_fresh (s : Setting) :
    ∀ ss : List Setting, ss.any (fun x => x.tag == s.tag) = false →
      (ss ++ [s]).find? (fun x => x.tag == s.tag) = some s := by
  intro ss
  induction ss with
  | nil =>
    intro _
    exact List.find?_cons_of_pos _ (by simp)
  | cons y ys ih =>
    intro hany
    rw [List.any_cons, Bool.or_eq_false_iff] at hany
    rw [List.cons_append, List.find?_cons_of_neg _ (by simp [hany.1])]
    exact ih hany.2

/-- After a hash insert, looking the inserted setting's tag up finds it. -/
theorem settingsInsert_find? (ss : List Setting) (s : Setting) :
    (settingsInsert ss s).find? (fun x => x.tag == s.tag) = some s := by
  unfold settingsInsert
  cases hany : ss.any (fun x => x.tag == s.tag) with
  | true =>
    simp only [if_true]
    exact find?_map_replace s ss hany
  | false =>
    simp only [Bool.false_eq_true, if_false]
    exact find?_append_fresh s ss hany

/-- Re-inserting the setting already stored under its tag is a no-op when
the table's tags are distinct. -/
theorem settingsInsert_noop {ss : List Setting} {s : Setting}
    (hnd : (ss.map (·.tag)).Nodup)
    (hfind : ss.find? (fun x => x.tag == s.tag) = some s) :
    settingsInsert ss s = ss := by
  have hmem : s ∈ ss := List.mem_of_find?_eq_some hfind
  have hany : ss.any (fun x => x.tag == s.tag) = true :=
    List.any_eq_true.mpr ⟨s, hmem, by simp⟩
  unfold settingsInsert
  rw [hany]
  simp only [if_true]
  have : ∀ x ∈ ss, (if x.tag == s.tag then s else x) = x := by
    intro x hx
    cases hxt : (x.tag == s.tag) with
    | false => simp
    | true =>
      have heq : x.tag = s.tag := by simpa using hxt
      have := find?_key_unique (·.tag) hnd hx heq
      rw [hfind] at this
      simp only [if_true]
      exact (Option.some.injEq _ _).mp this
  calc ss.map (fun x => if x.tag == s.tag then s else x)
      = ss.map id := List.map_congr_left this
    _ = ss := List.map_id ss

/-- A hash insert keeps the tag multiset intact up to the inserted tag:
replacement preserves every key, append adds a fresh one; either way
distinctness of tags is preserved. -/
theorem settingsInsert_nodup {ss : List Setting} (s : Setting)
    (hnd : (ss.map (·.tag)).Nodup) :
    ((settingsInsert ss s).map (·.tag)).Nodup := by
  unfold settingsInsert
  cases hany : ss.any (fun x => x.tag == s.tag) with
  | true =>
    simp only [if_true]
    have : (ss.map (fun x => if x.tag == s.tag then s else x)).map (·.tag) =
        ss.map (·.tag) := by
      rw [List.map_map]
      apply List.map_congr_left
      intro x _
      cases hxt : (x.tag == s.tag) with
      | false =>
        have : x.tag ≠ s.tag := by simpa using hxt
        simp [this]
      | true =>
        have : x.tag = s.tag := by simpa using hxt
        simp [this]
    rw [this]
    exact hnd
  | false =>
    simp only [Bool.false_eq_true, if_false]
    rw [List.map_append]
    refine List.Nodup.append hnd (by simp) ?_
    intro t ht ht2
    simp only [List.map_cons, List.map_nil, List.mem_singleton] at ht2
    subst ht2
    rcases List.mem_map.mp ht with ⟨x, hx, hxt⟩
    have hx2 : ss.any (fun x => x.tag == s.tag) = true :=
      List.any_eq_true.mpr ⟨x, hx, by simp [hxt]⟩
    rw [hany] at hx2
    cases hx2

/-- The `hash_to_connection` loop computes exactly the spec's rebuild: the
stale-loop-variable re-add for an unresolvable entry is a no-op because the
carried setting is already stored under its own tag. -/
theorem hash_fold_general (ops : SettingOps) (reg : Registry) :
    ∀ (entries : List (String × List (String × Value)))
      (acc : List Setting) (carried : Option Setting),
      (acc.map (·.tag)).Nodup →
      (∀ s, carried = some s → acc.find? (fun x => x.tag == s.tag) = some s) →
      (entries.foldl (hash_to_connection_step ops reg) (acc, carried)).1 =
        entries.foldl (replaced_settings_step ops reg) acc := by
  intro entries
  induction entries with
  | nil => intro acc carried _ _; rfl
  | cons e rest ih =>
    intro acc carried h1 h2
    rw [List.foldl_cons, List.foldl_cons]
    cases ht : nm_connection_lookup_setting_type reg e.1 with
    | some t =>
      have hstep : hash_to_connection_step ops reg (acc, carried) e =
          (settingsInsert acc (ops.newFromHash t e.2),
            some (ops.newFromHash t e.2)) := by
        simp [hash_to_connection_step, ht]
      have hspec : replaced_settings_step ops reg acc e =
          settingsInsert acc (ops.newFromHash t e.2) := by
        simp [replaced_settings_step, ht]
      rw [hstep, hspec]
      exact ih _ _ (settingsInsert_nodup _ h1)
        (fun s hs => by
          cases hs
          exact settingsInsert_find? acc (ops.newFromHash t e.2))
    | none =>
      have hspec : replaced_settings_step ops reg acc e = acc := by
        simp [replaced_settings_step, ht]
      rw [hspec]
      cases carried with
      | none =>
        have hstep : hash_to_connection_step ops reg (acc, none) e =
            (acc, none) := by
          simp [hash_to_connection_step, ht]
        rw [hstep]
        exact ih _ _ h1 (fun s hs => by cases hs)
      | some s =>
        have hfind := h2 s rfl
        have hstep : hash_to_connection_step ops reg (acc, some s) e =
            (settingsInsert acc s, some s) := by
          simp [hash_to_connection_step, ht]
        rw [hstep, settingsInsert_noop h1 hfind]
        exact ih _ _ h1 (fun s2 hs2 => by cases hs2; exact hfind)

/-- C2: if the connection-kind entry of the incoming map holds a
permissions value that is not a string list, replaceAll fails with
PropertyTypeMismatch before touching the connection; otherwise it
unconditionally clears the current settings, rebuilds one newly constructed
setting per entry whose kind name resolves (unknown names silently
skipped), runs Verify, and returns its result — on verification failure the
connection is left holding the new partial setting set, not the prior
one. -/
theorem replace_settings_spec (ops : SettingOps) (reg : Registry)
    (c : Connection) (new : List (String × List (String × Value))) :
    (∀ pm v, lookupStr new NM_SETTING_CONNECTION_SETTING_NAME = some pm →
      lookupStr pm NM_SETTING_CONNECTION_PERMISSIONS = some v →
      permissionsTypeOk v = false →
      nm_connection_replace_settings ops reg c new =
        ⟨false, c, some .propertyTypeMismatch⟩)
    ∧ (validate_permissions_type new = true →
        (nm_connection_replace_settings ops reg c new).conn =
          { c with settings := replaced_settings_spec ops reg new }
        ∧ (nm_connection_replace_settings ops reg c new).ok =
            (nm_connection_verify ops reg
              (nm_connection_replace_settings ops reg c new).conn).isNone
        ∧ (nm_connection_replace_settings ops reg c new).err =
            nm_connection_verify ops reg
              (nm_connection_replace_settings ops reg c new).conn) := by
  constructor
  · intro pm v h1 h2 h3
    have hval : validate_permissions_type new = false := by
      simp [validate_permissions_type, h1, h2, h3]
    simp [nm_connection_replace_settings, hval]
  · intro hval
    have hfold : (hash_to_connection_fold ops reg new).1 =
        replaced_settings_spec ops reg new :=
      hash_fold_general ops reg new [] none (by simp) (fun s hs => by cases hs)
    have hrepl : nm_connection_replace_settings ops reg c new =
        hash_to_connection ops reg c new := by
      simp [nm_connection_replace_settings, hval]
    rw [hrepl]
    simp only [hash_to_connection, hfold]
    cases hver : nm_connection_verify ops reg
        { settings := replaced_settings_spec ops reg new, path := c.path } with
    | none => exact ⟨rfl, by simp [hver], by simp [hver]⟩
    | some e => exact ⟨rfl, by simp [hver], by simp [hver]⟩

/-- C2 witness: a wrong-typed permissions value is rejected leaving the
connection untouched, and a valid map rebuilds the settings wholesale. -/
theorem replace_settings_spec_witness :
    nm_connection_replace_settings
      { verify := fun _ _ => none, compare := fun _ _ _ => true,
        diff := fun _ _ _ _ r => (true, r), needSecrets := fun _ => none,
        updateSecrets := fun s _ => .ok s,
        toHash := fun _ _ => [], newFromHash := fun t _ => ⟨t, "new", 0⟩,
        connectionType := fun _ => none }
      [⟨"connection", 2, 0, 5⟩]
      ⟨[⟨9, "old", 3⟩], none⟩
      [("connection", [("permissions", Value.vstr "oops")])] =
      ⟨false, ⟨[⟨9, "old", 3⟩], none⟩, some .propertyTypeMismatch⟩ := by
  have h := (replace_settings_spec
    { verify := fun _ _ => none, compare := fun _ _ _ => true,
      diff := fun _ _ _ _ r => (true, r), needSecrets := fun _ => none,
      updateSecrets := fun s _ => .ok s,
      toHash := fun _ _ => [], newFromHash := fun t _ => ⟨t, "new", 0⟩,
      connectionType := fun _ => none }
    [⟨"connection", 2, 0, 5⟩]
    ⟨[⟨9, "old", 3⟩], none⟩
    [("connection", [("permissions", Value.vstr "oops")])]).1
    [("permissions", Value.vstr "oops")] (Value.vstr "oops") rfl rfl rfl
  rw [h]

/-! ## C4 -/

/-- The GLib comparator exceeds zero exactly when the new element's
priority is strictly greater than the cursor's. -/
theorem cmp_pos_iff (reg : Registry) (x y : Setting) :
    setting_priority_compare reg x y > 0 ↔
      _get_setting_priority reg y < _get_setting_priority reg x := by
  unfold setting_priority_compare
  by_cases h1 : _get_setting_priority reg x < _get_setting_priority reg y
  · simp [h1, Nat.le_of_lt h1, Nat.not_lt]
  · by_cases h2 : _get_setting_priority reg x = _get_setting_priority reg y
    · simp [h1, h2]
    · simp only [h1, if_false, beq_iff_eq, h2]
      constructor
      · intro _
        exact Nat.lt_of_le_of_ne (Nat.not_lt.mp h1) (fun he => h2 he.symm)
      · intro _
        decide

/-- `g_slist_insert_sorted` permutes: the result is the element consed on. -/
theorem slistInsertSorted_perm (reg : Registry) :
    ∀ (l : List Setting) (x : Setting),
      List.Perm (slistInsertSorted reg l x) (x :: l) := by
  intro l
  induction l with
  | nil => intro x; exact List.Perm.refl [x]
  | cons y ys ih =>
    intro x
    unfold slistInsertSorted
    by_cases h : setting_priority_compare reg x y > 0
    · rw [if_pos h]
      exact List.Perm.trans (List.Perm.cons y (ih x)) (List.Perm.swap x y ys)
    · rw [if_neg h]

/-- The priority-sorted build is a permutation of the settings. -/
theorem sortFold_perm (reg : Registry) :
    ∀ (l acc : List Setting),
      List.Perm (l.foldl (slistInsertSorted reg) acc) (l ++ acc) := by
  intro l
  induction l with
  | nil => intro acc; simp
  | cons y ys ih =>
    intro acc
    rw [List.foldl_cons]
    exact List.Perm.trans (ih _)
      (List.Perm.trans
        (List.Perm.append_left ys (slistInsertSorted_perm reg acc y))
        List.perm_middle)

/-- `g_slist_insert_sorted` preserves ascending-priority sortedness. -/
theorem slistInsertSorted_sorted (reg : Registry) :
    ∀ (l : List Setting) (x : Setting),
      l.Pairwise (fun u v =>
        _get_setting_priority reg u ≤ _get_setting_priority reg v) →
      (slistInsertSorted reg l x).Pairwise (fun u v =>
        _get_setting_priority reg u ≤ _get_setting_priority reg v) := by
  intro l
  induction l with
  | nil => intro x _; simp [slistInsertSorted]
  | cons y ys ih =>
    intro x hp
    rw [List.pairwise_cons] at hp
    unfold slistInsertSorted
    by_cases h : setting_priority_compare reg x y > 0
    · rw [if_pos h]
      rw [List.pairwise_cons]
      constructor
      · intro z hz
        have hmem := (slistInsertSorted_perm reg ys x).mem_iff.mp hz
        rcases List.mem_cons.mp hmem with hzx | hzys
        · rw [hzx]
          exact Nat.le_of_lt ((cmp_pos_iff reg x y).mp h)
        · exact hp.1 z hzys
      · exact ih x hp.2
    · rw [if_neg h]
      have hxy : _get_setting_priority reg x ≤ _get_setting_priority reg y :=
        Nat.not_lt.mp (fun hlt => h ((cmp_pos_iff reg x y).mpr hlt))
      rw [List.pairwise_cons]
      constructor
      · intro z hz
        rcases List.mem_cons.mp hz with rfl | hzys
        · exact hxy
        · exact Nat.le_trans hxy (hp.1 z hzys)
      · exact List.pairwise_cons.mpr hp

/-- In an ascending-priority-sorted list, the first element satisfying a
predicate has minimal priority among all elements satisfying it. -/
theorem find?_sorted_minimal (reg : Registry) (p : Setting → Bool) :
    ∀ (l : List Setting),
      l.Pairwise (fun u v =>
        _get_setting_priority reg u ≤ _get_setting_priority reg v) →
      ∀ x, l.find? p = some x →
        ∀ y ∈ l, p y = true →
          _get_setting_priority reg x ≤ _get_setting_priority reg y := by
  intro l
  induction l with
  | nil => intro _ x hx; cases hx
  | cons h t ih =>
    intro hp x hfind y hy hpy
    rw [List.pairwise_cons] at hp
    cases hph : p h with
    | true =>
      rw [List.find?_cons_of_pos _ hph, Option.some.injEq] at hfind
      subst hfind
      rcases List.mem_cons.mp hy with rfl | hyt
      · exact Nat.le_refl _
      · exact hp.1 y hyt
    | false =>
      rw [List.find?_cons_of_neg _ (by simp [hph])] at hfind
      rcases List.mem_cons.mp hy with rfl | hyt
      · rw [hph] at hpy
        cases hpy
      · exact ih hp.2 x hfind y hyt hpy

/-- C4: needSecrets walks the owned settings in ascending registry-priority
order and returns the name and hints of the first one reporting a need: it
returns none exactly when no owned setting reports a need; a returned name
belongs to an owned needing setting of minimal priority among all needing
settings; in particular, when one needing setting has strictly smaller
priority than every other needing setting (e.g. priority 1 against
priority 3), that setting's name and hints are returned. -/
theorem need_secrets_spec (ops : SettingOps) (reg : Registry) (c : Connection) :
    (nm_connection_need_secrets ops reg c = none ↔
      ∀ s ∈ c.settings, ops.needSecrets s = none)
    ∧ (∀ nm hints, nm_connection_need_secrets ops reg c = some (nm, hints) →
        ∃ s ∈ c.settings, s.sname = nm ∧ ops.needSecrets s = some hints ∧
          ∀ t ∈ c.settings, (ops.needSecrets t).isSome = true →
            _get_setting_priority reg s ≤ _get_setting_priority reg t)
    ∧ (∀ s1 hints1, s1 ∈ c.settings → ops.needSecrets s1 = some hints1 →
        (∀ t ∈ c.settings, t ≠ s1 → (ops.needSecrets t).isSome = true →
          _get_setting_priority reg s1 < _get_setting_priority reg t) →
        nm_connection_need_secrets ops reg c = some (s1.sname, hints1)) := by
  have hperm : List.Perm (c.settings.foldl (slistInsertSorted reg) []) c.settings := by
    have := sortFold_perm reg c.settings []
    rwa [List.append_nil] at this
  have hsorted : (c.settings.foldl (slistInsertSorted reg) []).Pairwise
      (fun u v => _get_setting_priority reg u ≤ _get_setting_priority reg v) := by
    have : ∀ (l acc : List Setting),
        acc.Pairwise (fun u v =>
          _get_setting_priority reg u ≤ _get_setting_priority reg v) →
        (l.foldl (slistInsertSorted reg) acc).Pairwise (fun u v =>
          _get_setting_priority reg u ≤ _get_setting_priority reg v) := by
      intro l
      induction l with
      | nil => intro acc h; exact h
      | cons y ys ih =>
        intro acc h
        rw [List.foldl_cons]
        exact ih _ (slistInsertSorted_sorted reg acc y h)
    exact this c.settings [] (by simp)
  have hmain : ∀ nm hints, nm_connection_need_secrets ops reg c = some (nm, hints) →
      ∃ s ∈ c.settings, s.sname = nm ∧ ops.needSecrets s = some hints ∧
        ∀ t ∈ c.settings, (ops.needSecrets t).isSome = true →
          _get_setting_priority reg s ≤ _get_setting_priority reg t := by
    intro nm hints h
    simp only [nm_connection_need_secrets] at h
    cases hfind : (c.settings.foldl (slistInsertSorted reg) []).find?
        (fun s => (ops.needSecrets s).isSome) with
    | none => rw [hfind] at h; cases h
    | some s =>
      rw [hfind] at h
      have hps : (ops.needSecrets s).isSome = true := by
        have := List.find?_some hfind
        simpa using this
      rcases Option.isSome_iff_exists.mp hps with ⟨hs, hhs⟩
      rw [Option.some.injEq] at h
      have hname : s.sname = nm := congrArg Prod.fst h
      have hhints : (ops.needSecrets s).getD [] = hints := congrArg Prod.snd h
      rw [hhs] at hhints
      simp only [Option.getD_some] at hhints
      refine ⟨s, hperm.mem_iff.mp (List.mem_of_find?_eq_some hfind), hname,
        by rw [hhs, hhints], ?_⟩
      intro t ht hpt
      exact find?_sorted_minimal reg _ _ hsorted s hfind t
        (hperm.mem_iff.mpr ht) hpt
  have hnone : nm_connection_need_secrets ops reg c = none ↔
      ∀ s ∈ c.settings, ops.needSecrets s = none := by
    simp only [nm_connection_need_secrets]
    cases hfind : (c.settings.foldl (slistInsertSorted reg) []).find?
        (fun s => (ops.needSecrets s).isSome) with
    | none =>
      rw [List.find?_eq_none] at hfind
      constructor
      · intro _ s hs
        have := hfind s (hperm.mem_iff.mpr hs)
        simpa using this
      · intro _
        rfl
    | some s =>
      constructor
      · intro h
        cases h
      · intro hall
        have hps : (ops.needSecrets s).isSome = true := by
          have := List.find?_some hfind
          simpa using this
        have hmem : s ∈ c.settings :=
          hperm.mem_iff.mp (List.mem_of_find?_eq_some hfind)
        rw [hall s hmem] at hps
        cases hps
  refine ⟨hnone, hmain, ?_⟩
  intro s1 hints1 hmem1 hneed1 hstrict
  cases hres : nm_connection_need_secrets ops reg c with
  | none =>
    have := hnone.mp hres s1 hmem1
    rw [hneed1] at this
    cases this
  | some pr =>
    obtain ⟨nm, hints⟩ := pr
    obtain ⟨s, hsmem, hsname, hsneed, hsmin⟩ := hmain nm hints hres
    have hseq : s = s1 := by
      by_contra hne
      have hlt := hstrict s hsmem hne (by rw [hsneed]; rfl)
      have hle := hsmin s1 hmem1 (by rw [hneed1]; rfl)
      exact Nat.not_le.mpr hlt hle
    subst hseq
    rw [hneed1, Option.some.injEq] at hsneed
    rw [hsname, hsneed]

/-- C4 witness: a connection holding a priority-3 PPP setting and a
priority-1 ethernet setting, both reporting a need, yields the ethernet
setting's name and hints. -/
theorem need_secrets_spec_witness :
    nm_connection_need_secrets
      { verify := fun _ _ => none, compare := fun _ _ _ => true,
        diff := fun _ _ _ _ r => (true, r),
        needSecrets := fun s => if s.tag == 2 then none else some [s.sname],
        updateSecrets := fun s _ => .ok s,
        toHash := fun _ _ => [], newFromHash := fun t _ => ⟨t, "", 0⟩,
        connectionType := fun _ => none }
      [⟨"connection", 2, 0, 5⟩, ⟨"802-3-ethernet", 10, 1, 6⟩, ⟨"ppp", 11, 3, 7⟩]
      ⟨[⟨11, "ppp", 0⟩, ⟨2, "connection", 0⟩, ⟨10, "802-3-ethernet", 0⟩], none⟩ =
      some ("802-3-ethernet", ["802-3-ethernet"]) := by
  have h := (need_secrets_spec
    { verify := fun _ _ => none, compare := fun _ _ _ => true,
      diff := fun _ _ _ _ r => (true, r),
      needSecrets := fun s => if s.tag == 2 then none else some [s.sname],
      updateSecrets := fun s _ => .ok s,
      toHash := fun _ _ => [], newFromHash := fun t _ => ⟨t, "", 0⟩,
      connectionType := fun _ => none }
    [⟨"connection", 2, 0, 5⟩, ⟨"802-3-ethernet", 10, 1, 6⟩, ⟨"ppp", 11, 3, 7⟩]
    ⟨[⟨11, "ppp", 0⟩, ⟨2, "connection", 0⟩, ⟨10, "802-3-ethernet", 0⟩], none⟩).2.2
    ⟨10, "802-3-ethernet", 0⟩ ["802-3-ethernet"] (by decide) (by decide)
    (by decide)
  exact h

/-! ## C9 -/

/-- One diff step never shrinks the result (entries are updated in place or
appended, never removed). -/
theorem diffStep_length (ops : SettingOps) (b : Option Connection)
    (flags : Nat) (invert : Bool) (ds : DiffMap) (aset : Setting) :
    ds.length ≤ (diffStep ops b flags invert ds aset).length := by
  simp only [diffStep]
  cases h : lookupStr ds aset.sname with
  | some existing => simp [diffsUpdate]
  | none =>
    cases hr : (ops.diff aset (counterpart b aset) flags invert []).1 with
    | true => simp
    | false => simp

/-- A directional scan never shrinks the accumulated result. -/
theorem diff_fold_length (ops : SettingOps) (b : Option Connection)
    (flags : Nat) (invert : Bool) :
    ∀ (l : List Setting) (ds : DiffMap),
      ds.length ≤ (l.foldl (diffStep ops b flags invert) ds).length := by
  intro l
  induction l with
  | nil => intro ds; exact Nat.le_refl _
  | cons x xs ih =>
    intro ds
    rw [List.foldl_cons]
    exact Nat.le_trans (diffStep_length ops b flags invert ds x) (ih _)

/-- A directional scan from a nonempty accumulator stays nonempty. -/
theorem diff_fold_ne_nil (ops : SettingOps) (b : Option Connection)
    (flags : Nat) (invert : Bool) (l : List Setting) {ds : DiffMap}
    (h : ds ≠ []) : l.foldl (diffStep ops b flags invert) ds ≠ [] := by
  intro h2
  have hlen := diff_fold_length ops b flags invert l ds
  rw [h2] at hlen
  simp only [List.length_nil, Nat.le_zero, List.length_eq_zero] at hlen
  exact h hlen

/-- A directional scan from an empty accumulator ends empty exactly when
every setting's diff capability reported no difference. -/
theorem diff_fold_nil_iff (ops : SettingOps) (b : Option Connection)
    (flags : Nat) (invert : Bool) :
    ∀ l : List Setting,
      l.foldl (diffStep ops b flags invert) [] = [] ↔
        ∀ x ∈ l, (ops.diff x (counterpart b x) flags invert []).1 = true := by
  intro l
  induction l with
  | nil => simp
  | cons x xs ih =>
    rw [List.foldl_cons]
    cases hr : (ops.diff x (counterpart b x) flags invert []).1 with
    | true =>
      have hstep : diffStep ops b flags invert [] x = [] := by
        simp [diffStep, lookupStr, hr]
      rw [hstep]
      constructor
      · intro h
        intro y hy
        rcases List.mem_cons.mp hy with hyx | hyxs
        · rw [hyx, hr]
        · exact (ih.mp h) y hyxs
      · intro h
        exact ih.mpr (fun y hy => h y (List.mem_cons_of_mem x hy))
    | false =>
      have hstep : diffStep ops b flags invert [] x =
          [(x.sname, (ops.diff x (counterpart b x) flags invert []).2)] := by
        simp [diffStep, lookupStr, hr]
      rw [hstep]
      constructor
      · intro h
        exact absurd h (diff_fold_ne_nil ops b flags invert xs (by simp))
      · intro h
        have := h x (List.mem_cons_self x xs)
        rw [hr] at this
        cases this

/-- The combined forward-and-reverse scan ends empty exactly when both
directional scans report no difference anywhere. -/
theorem diff_both_nil_iff (ops : SettingOps) (a bc : Connection) (flags : Nat) :
    diff_one_connection ops bc (some a) flags true
      (diff_one_connection ops a (some bc) flags false []) = [] ↔
      ((∀ x ∈ a.settings,
          (ops.diff x (counterpart (some bc) x) flags false []).1 = true)
       ∧ (∀ y ∈ bc.settings,
          (ops.diff y (counterpart (some a) y) flags true []).1 = true)) := by
  unfold diff_one_connection
  by_cases hd1 : a.settings.foldl (diffStep ops (some bc) flags false) [] = []
  · rw [hd1]
    rw [diff_fold_nil_iff]
    have hfwd := (diff_fold_nil_iff ops (some bc) flags false a.settings).mp hd1
    constructor
    · intro h
      exact ⟨hfwd, h⟩
    · intro h
      exact h.2
  · constructor
    · intro h
      exact absurd h (diff_fold_ne_nil ops (some a) flags true bc.settings hd1)
    · intro h
      exact absurd ((diff_fold_nil_iff ops (some bc) flags false a.settings).mpr h.1) hd1

/-- Lookup by tag finds the unique member carrying that tag. -/
theorem get_setting_eq_of_mem {c : Connection} {s : Setting} {t : Nat}
    (hnd : (c.settings.map (·.tag)).Nodup) (hmem : s ∈ c.settings)
    (ht : s.tag = t) : nm_connection_get_setting c t = some s := by
  unfold nm_connection_get_setting
  exact find?_key_unique (·.tag) hnd hmem ht

/-- Matched settings give a tag-wise inclusion of `a` into `b`. -/
theorem tags_subset_of_matched {ops : SettingOps} {flags : Nat}
    {a b : Connection}
    (h : ∀ s ∈ a.settings, ∃ t, nm_connection_get_setting b s.tag = some t ∧
        ops.compare s t flags = true) :
    (a.settings.map (·.tag)) ⊆ (b.settings.map (·.tag)) := by
  intro tg htg
  rcases List.mem_map.mp htg with ⟨x, hx, hxt⟩
  rcases h x hx with ⟨t, hget, _⟩
  have hget2 : b.settings.find? (fun s2 => s2.tag == x.tag) = some t := hget
  have htmem : t ∈ b.settings := List.mem_of_find?_eq_some hget2
  have htag : t.tag = x.tag := by
    have := List.find?_some hget2
    simpa using this
  rw [← hxt, ← htag]
  exact List.mem_map_of_mem _ htmem

/-- C9: diff of a connection against itself is (equal, empty); the returned
boolean is true exactly when the merged result has zero entries; and under
the per-setting coherence of the external capabilities at the given flags
(diff agrees with compare, a missing counterpart is a difference, compare
is symmetric and reflexive) with hash-unique tags on both sides, the
returned boolean coincides with compare at the same flags. -/
theorem diff_spec (ops : SettingOps) (flags : Nat) (a bc : Connection) :
    (nm_connection_diff ops a (some a) flags = (true, []))
    ∧ (∀ b : Option Connection, (nm_connection_diff ops a b flags).1 =
        (nm_connection_diff ops a b flags).2.isEmpty)
    ∧ ((∀ s t inv prev, (ops.diff s (some t) flags inv prev).1 =
          ops.compare s t flags) →
       (∀ s inv prev, (ops.diff s none flags inv prev).1 = false) →
       (∀ s t, ops.compare s t flags = ops.compare t s flags) →
       (∀ s, ops.compare s s flags = true) →
       (a.settings.map (·.tag)).Nodup →
       (bc.settings.map (·.tag)).Nodup →
       (nm_connection_diff ops a (some bc) flags).1 =
         nm_connection_compare ops (some a) (some bc) flags) := by
  refine ⟨by simp [nm_connection_diff], ?_, ?_⟩
  · intro b
    unfold nm_connection_diff
    by_cases h : b == some a
    · rw [if_pos h]
      rfl
    · rw [if_neg h]
  · intro hd1 hd2 hsym hrefl hna hnb
    by_cases heq : bc = a
    · subst heq
      have hsc : nm_connection_diff ops bc (some bc) flags = (true, []) := by
        simp [nm_connection_diff]
      rw [hsc]
      have : nm_connection_compare ops (some bc) (some bc) flags = true := by
        rw [compare_some_iff]
        refine ⟨?_, rfl⟩
        intro s hs
        exact ⟨s, get_setting_eq_of_mem hnb hs rfl, hrefl s⟩
      rw [this]
    · have hne : (some bc == some a) = false := by
        simp only [beq_eq_false_iff_ne, ne_eq, Option.some.injEq]
        exact heq
      unfold nm_connection_diff
      rw [hne]
      simp only [Bool.false_eq_true, if_false]
      rw [Bool.eq_iff_iff, List.isEmpty_iff, diff_both_nil_iff]
      rw [compare_some_iff]
      have hfwd_iff : (∀ x ∈ a.settings,
          (ops.diff x (counterpart (some bc) x) flags false []).1 = true) ↔
          (∀ s ∈ a.settings, ∃ t, nm_connection_get_setting bc s.tag = some t ∧
            ops.compare s t flags = true) := by
        refine forall₂_congr fun x hx => ?_
        have hcp : counterpart (some bc) x = nm_connection_get_setting bc x.tag :=
          rfl
        rw [hcp]
        cases hg : nm_connection_get_setting bc x.tag with
        | none =>
          rw [hd2 x false []]
          simp
        | some t =>
          rw [hd1 x t false []]
          simp
      constructor
      · rintro ⟨hF, hR⟩
        have hmatched := hfwd_iff.mp hF
        refine ⟨hmatched, ?_⟩
        have hmatchedR : ∀ y ∈ bc.settings, ∃ u,
            nm_connection_get_setting a y.tag = some u ∧
            ops.compare y u flags = true := by
          intro y hy
          have := hR y hy
          have hcp : counterpart (some a) y = nm_connection_get_setting a y.tag :=
            rfl
          rw [hcp] at this
          cases hg : nm_connection_get_setting a y.tag with
          | none =>
            rw [hg, hd2 y true []] at this
            cases this
          | some u =>
            rw [hg, hd1 y u true []] at this
            exact ⟨u, rfl, this⟩
        have hab := tags_subset_of_matched hmatched
        have hba := tags_subset_of_matched hmatchedR
        have h1 := (hna.subperm hab).length_le
        have h2 := (hnb.subperm hba).length_le
        simp only [List.length_map] at h1 h2
        exact Nat.le_antisymm h1 h2
      · rintro ⟨hmatched, hlen⟩
        refine ⟨hfwd_iff.mpr hmatched, ?_⟩
        intro y hy
        have hab := tags_subset_of_matched hmatched
        have hperm : (a.settings.map (·.tag)).Perm (bc.settings.map (·.tag)) :=
          (hna.subperm hab).perm_of_length_le (by simp [hlen])
        have hytag : y.tag ∈ a.settings.map (·.tag) :=
          hperm.mem_iff.mpr (List.mem_map_of_mem _ hy)
        rcases List.mem_map.mp hytag with ⟨u, hu, hut⟩
        have hgu : nm_connection_get_setting a y.tag = some u :=
          get_setting_eq_of_mem hna hu hut
        have hcp : counterpart (some a) y = nm_connection_get_setting a y.tag :=
          rfl
        rw [hcp, hgu, hd1 y u true []]
        rcases hmatched u hu with ⟨t, hgt, hcut⟩
        have hgt2 : nm_connection_get_setting bc y.tag = some t := by
          rw [← hut]
          exact hgt
        have hgy : nm_connection_get_setting bc y.tag = some y :=
          get_setting_eq_of_mem hnb hy rfl
        rw [hgy] at hgt2
        have hty : t = y := ((Option.some.injEq _ _).mp hgt2).symm
        rw [hty] at hcut
        rw [hsym y u]
        exact hcut

/-- A concrete setting-capability instance whose compare is structural
equality and whose diff reports exactly that, used to instantiate the
coherence hypotheses. -/
def opsW : SettingOps :=
  { verify := fun _ _ => none,
    compare := fun s t _ => s == t,
    diff := fun s t _ _ prev =>
      match t with
      | some ts => (s == ts, if s == ts then prev else prev ++ [("p", 1)])
      | none => (false, prev ++ [("p", 1)]),
    needSecrets := fun _ => none,
    updateSecrets := fun s _ => .ok s,
    toHash := fun _ _ => [],
    newFromHash := fun t _ => ⟨t, "", 0⟩,
    connectionType := fun _ => none }

/-- C9 witness: with the structural-equality capabilities, diff against a
connection lacking the only setting returns false, as compare does. -/
theorem diff_spec_witness :
    (nm_connection_diff opsW ⟨[⟨1, "x", 0⟩], none⟩ (some ⟨[], none⟩) 0).1 =
      nm_connection_compare opsW (some ⟨[⟨1, "x", 0⟩], none⟩)
        (some ⟨[], none⟩) 0 := by
  have h := (diff_spec opsW 0 ⟨[⟨1, "x", 0⟩], none⟩ ⟨[], none⟩).2.2
    (fun s t inv prev => rfl) (fun s inv prev => rfl)
    (fun s t => by
      rw [Bool.eq_iff_iff]
      show (s == t) = true ↔ (t == s) = true
      simp only [beq_iff_eq]
      exact eq_comm)
    (fun s => beq_self_eq_true s)
    (by decide) (by decide)
  exact h

/-! ## C5 -/

/-- Settings with distinct tags whose names resolve via the registry to
their own tags have distinct names (the registry maps each name to one
GType). -/
theorem snames_nodup {reg : Registry} {c : Connection}
    (htags : (c.settings.map (·.tag)).Nodup)
    (hresolve : ∀ s ∈ c.settings,
      nm_connection_lookup_setting_type reg s.sname = some s.tag) :
    (c.settings.map (·.sname)).Nodup := by
  have hln : c.settings.Nodup := htags.of_map
  rw [List.nodup_map_iff_inj_on hln]
  intro x hx y hy hnm
  have h1 := hresolve x hx
  have h2 := hresolve y hy
  rw [hnm, h2] at h1
  have htag : y.tag = x.tag := (Option.some.injEq _ _).mp h1
  have hinj := (List.nodup_map_iff_inj_on hln).mp htags
  exact (hinj y hy x hx htag).symm

/-- The serialization loop appends one entry per setting (fresh names and
nonempty per-setting maps make every hash insert an append). -/
theorem to_hash_list_general (ops : SettingOps) (flags : Nat) :
    ∀ (l : List Setting) (acc : List (String × List (String × Value))),
      (∀ s ∈ l, ops.toHash s flags ≠ []) →
      (∀ s ∈ l, acc.any (fun p => p.1 == s.sname) = false) →
      (l.map (·.sname)).Nodup →
      l.foldl (to_hash_step ops flags) acc =
        acc ++ l.map (fun s => (s.sname, ops.toHash s flags)) := by
  intro l
  induction l with
  | nil => intro acc _ _ _; simp
  | cons s l ih =>
    intro acc hne hfresh hnd
    rw [List.foldl_cons, List.map_cons]
    have hemp : (ops.toHash s flags).isEmpty = false := by
      rw [← Bool.not_eq_true, List.isEmpty_iff]
      exact hne s (List.mem_cons_self s l)
    have hstep : to_hash_step ops flags acc s =
        acc ++ [(s.sname, ops.toHash s flags)] := by
      simp only [to_hash_step, hemp, Bool.false_eq_true, if_false]
      unfold strInsert
      rw [hfresh s (List.mem_cons_self s l)]
      simp
    rw [hstep]
    rw [List.map_cons, List.nodup_cons] at hnd
    have hfresh2 : ∀ s2 ∈ l,
        (acc ++ [(s.sname, ops.toHash s flags)]).any
          (fun p => p.1 == s2.sname) = false := by
      intro s2 hs2
      rw [List.any_append]
      rw [hfresh s2 (List.mem_cons_of_mem s hs2)]
      have : s.sname ≠ s2.sname := by
        intro h
        exact hnd.1 (h ▸ List.mem_map_of_mem _ hs2)
      simp [this]
    rw [ih _ (fun s2 hs2 => hne s2 (List.mem_cons_of_mem s hs2)) hfresh2 hnd.2]
    rw [List.append_assoc]
    rfl

/-- Deserializing the per-setting serializations of a tag-distinct setting
list rebuilds exactly that list, entry by entry, when each kind's
serialization round-trips losslessly. -/
theorem hash_fold_lossless (ops : SettingOps) (reg : Registry) (flags : Nat) :
    ∀ (l : List Setting) (acc : List Setting) (carried : Option Setting),
      (∀ s ∈ l, nm_connection_lookup_setting_type reg s.sname = some s.tag) →
      (∀ s ∈ l, ops.newFromHash s.tag (ops.toHash s flags) = s) →
      (∀ s ∈ l, acc.any (fun x => x.tag == s.tag) = false) →
      (l.map (·.tag)).Nodup →
      ((l.map (fun s => (s.sname, ops.toHash s flags))).foldl
        (hash_to_connection_step ops reg) (acc, carried)).1 = acc ++ l := by
  intro l
  induction l with
  | nil => intro acc carried _ _ _ _; simp
  | cons s l ih =>
    intro acc carried hres hloss hfresh hnd
    rw [List.map_cons, List.foldl_cons]
    have hstep : hash_to_connection_step ops reg (acc, carried)
        (s.sname, ops.toHash s flags) = (settingsInsert acc s, some s) := by
      simp [hash_to_connection_step, hres s (List.mem_cons_self s l),
        hloss s (List.mem_cons_self s l)]
    have hins : settingsInsert acc s = acc ++ [s] := by
      unfold settingsInsert
      rw [hfresh s (List.mem_cons_self s l)]
      simp
    rw [hstep, hins]
    rw [List.map_cons, List.nodup_cons] at hnd
    have hfresh2 : ∀ s2 ∈ l,
        (acc ++ [s]).any (fun x => x.tag == s2.tag) = false := by
      intro s2 hs2
      rw [List.any_append]
      rw [hfresh s2 (List.mem_cons_of_mem s hs2)]
      have : s.tag ≠ s2.tag := by
        intro h
        exact hnd.1 (h ▸ List.mem_map_of_mem _ hs2)
      simp [this]
    rw [ih _ _ (fun s2 hs2 => hres s2 (List.mem_cons_of_mem s hs2))
      (fun s2 hs2 => hloss s2 (List.mem_cons_of_mem s hs2)) hfresh2 hnd.2]
    rw [List.append_assoc]
    rfl

/-- Verification reads only the settings table, never the path. -/
theorem verify_settings_only (ops : SettingOps) (reg : Registry)
    (ss : List Setting) (p1 p2 : Option String) :
    nm_connection_verify ops reg ⟨ss, p1⟩ = nm_connection_verify ops reg ⟨ss, p2⟩ :=
  rfl

/-- C5: for a connection that passes verify (with hash-unique tags and
registry-consistent names), assuming each owned setting kind's own
serialization is lossless — its toHash is nonempty, feeding it back through
newFromHash reproduces the setting, the serialized permissions entry is
well-typed, and its comparator is reflexive at the chosen flags —
deserializing the serialization succeeds and yields a connection holding
the very same settings, which compare-equals the original. -/
theorem to_hash_round_trip (ops : SettingOps) (reg : Registry) (c : Connection)
    (hashFlags cmpFlags : Nat)
    (hver : nm_connection_verify ops reg c = none)
    (htags : (c.settings.map (·.tag)).Nodup)
    (hresolve : ∀ s ∈ c.settings,
      nm_connection_lookup_setting_type reg s.sname = some s.tag)
    (hnonempty : ∀ s ∈ c.settings, ops.toHash s hashFlags ≠ [])
    (hlossless : ∀ s ∈ c.settings,
      ops.newFromHash s.tag (ops.toHash s hashFlags) = s)
    (hperm : validate_permissions_type (to_hash_list ops c hashFlags) = true)
    (hrefl : ∀ s ∈ c.settings, ops.compare s s cmpFlags = true) :
    ∃ h c2, nm_connection_to_hash ops c hashFlags = some h ∧
      nm_connection_new_from_hash ops reg h = .ok c2 ∧
      c2.settings = c.settings ∧
      nm_connection_compare ops (some c) (some c2) cmpFlags = true := by
  have hnames : (c.settings.map (·.sname)).Nodup := snames_nodup htags hresolve
  have hlist : to_hash_list ops c hashFlags =
      c.settings.map (fun s => (s.sname, ops.toHash s hashFlags)) := by
    unfold to_hash_list
    rw [to_hash_list_general ops hashFlags c.settings [] hnonempty
      (fun _ _ => rfl) hnames]
    simp
  have hne : c.settings ≠ [] := by
    intro hempty
    have hget : nm_connection_get_setting c NM_TYPE_SETTING_CONNECTION = none := by
      simp [nm_connection_get_setting, hempty]
    simp only [nm_connection_verify, hget] at hver
    cases hver
  have hto : nm_connection_to_hash ops c hashFlags =
      some (to_hash_list ops c hashFlags) := by
    unfold nm_connection_to_hash
    have : (to_hash_list ops c hashFlags).isEmpty = false := by
      rw [← Bool.not_eq_true, List.isEmpty_iff, hlist]
      intro hmap
      exact hne (List.map_eq_nil_iff.mp hmap)
    simp [this]
  have hfold : (hash_to_connection_fold ops reg (to_hash_list ops c hashFlags)).1 =
      c.settings := by
    unfold hash_to_connection_fold
    rw [hlist]
    exact hash_fold_lossless ops reg hashFlags c.settings [] none hresolve
      hlossless (fun _ _ => rfl) htags
  have hverify2 : nm_connection_verify ops reg
      ⟨c.settings, (none : Option String)⟩ = none := by
    have hcast : nm_connection_verify ops reg ⟨c.settings, none⟩ =
        nm_connection_verify ops reg ⟨c.settings, c.path⟩ :=
      verify_settings_only ops reg c.settings none c.path
    rw [hcast]
    exact hver
  have hnew : nm_connection_new_from_hash ops reg (to_hash_list ops c hashFlags) =
      .ok ⟨c.settings, none⟩ := by
    unfold nm_connection_new_from_hash
    rw [hperm]
    simp only [if_true]
    unfold hash_to_connection
    rw [hfold]
    simp only [hverify2]
    rfl
  refine ⟨to_hash_list ops c hashFlags, ⟨c.settings, none⟩, hto, hnew, rfl, ?_⟩
  rw [compare_some_iff]
  constructor
  · intro s hs
    exact ⟨s, get_setting_eq_of_mem htags hs rfl, hrefl s hs⟩
  · rfl

/-- A two-kind registry for the round-trip witness: the reserved connection
kind and a priority-1 ethernet kind. -/
def reg5 : Registry := [⟨"connection", 2, 0, 5⟩, ⟨"802-3-ethernet", 10, 1, 6⟩]

/-- Capabilities with a lossless per-setting serialization (the state
identifier is stored and read back) for the round-trip witness. -/
def ops5 : SettingOps :=
  { verify := fun _ _ => none,
    compare := fun s t _ => s == t,
    diff := fun _ _ _ _ r => (true, r),
    needSecrets := fun _ => none,
    updateSecrets := fun s _ => .ok s,
    toHash := fun s _ => [("sid", Value.vuint s.sid)],
    newFromHash := fun t pm =>
      ⟨t, if t == 2 then "connection" else "802-3-ethernet",
        match pm with
        | [(_, Value.vuint n)] => n
        | _ => 0⟩,
    connectionType := fun _ => some "802-3-ethernet" }

/-- C5 witness: a verified connection/ethernet profile serializes and
deserializes back to an equal connection. -/
theorem to_hash_round_trip_witness :
    ∃ h c2, nm_connection_to_hash ops5
        ⟨[⟨2, "connection", 7⟩, ⟨10, "802-3-ethernet", 8⟩], none⟩ 0 = some h ∧
      nm_connection_new_from_hash ops5 reg5 h = .ok c2 ∧
      c2.settings = [⟨2, "connection", 7⟩, ⟨10, "802-3-ethernet", 8⟩] ∧
      nm_connection_compare ops5
        (some ⟨[⟨2, "connection", 7⟩, ⟨10, "802-3-ethernet", 8⟩], none⟩)
        (some c2) 0 = true :=
  to_hash_round_trip ops5 reg5
    ⟨[⟨2, "connection", 7⟩, ⟨10, "802-3-ethernet", 8⟩], none⟩ 0 0
    (by decide) (by decide) (by decide)
    (fun s _ => by simp [ops5])
    (by decide) (by decide) (by decide)

/-- C1 witness: a connection with no settings at all fails verification
with ConnectionSettingNotFound. -/
theorem verify_spec_witness :
    nm_connection_verify opsW [] ⟨[], none⟩ =
      some NMError.connectionSettingNotFound :=
  (verify_spec opsW [] ⟨[], none⟩).2 rfl

/-- C3 witness: two null connections compare equal. -/
theorem compare_spec_witness :
    nm_connection_compare opsW none none 0 = true :=
  (compare_spec opsW 0).1

end NMConn
